import Mathlib

/-
Verification of the BRV32 RV32IC MCU support code:
  * firmware/gen_firmware.py — symbolic RV32I instruction encoders, the test
    program, the post-hoc patch of a forward jump, and the hex serializer;
  * cocotb/test_brv32p_soc.py — the register observer (get_reg) and the two
    timeout-bounded waiters (wait_reg, wait_reg_nonzero).

Embedding conventions.  Python integers are arbitrary-precision two's
complement, so for a positive power of two 2^k:
  * Python `x & (2^k - 1)` equals Lean `x % 2^k` on Int (Euclidean mod,
    always in [0, 2^k)), and
  * Python `x >> n` (arithmetic shift) equals Lean `x / 2^n` on Int
    (Euclidean division agrees with floor division for positive divisors).
Field values produced by masking are nonnegative, so they are carried as Nat
via Int.toNat and combined with Nat shiftLeft / lor exactly as the source
combines them with `<<` and `|`.
-/

namespace BRV32

/-- Encoder for R-format words, from gen_firmware.py: r_type. -/
def r_type (funct7 rs2 rs1 funct3 rd : Nat) (opcode : Nat := 0x33) : Nat :=
  (funct7 <<< 25) ||| (rs2 <<< 20) ||| (rs1 <<< 15) ||| (funct3 <<< 12) ||| (rd <<< 7) ||| opcode

/-- Encoder for I-format words, from gen_firmware.py: i_type.
Python `imm & 0xFFF` is `imm % 4096` (Euclidean). -/
def i_type (imm : Int) (rs1 funct3 rd : Nat) (opcode : Nat := 0x13) : Nat :=
  ((imm % 4096).toNat <<< 20) ||| (rs1 <<< 15) ||| (funct3 <<< 12) ||| (rd <<< 7) ||| opcode

/-- Encoder for S-format words, from gen_firmware.py: s_type.
Python `(imm >> 5) & 0x7F` is `imm / 32 % 128`; `imm & 0x1F` is `imm % 32`. -/
def s_type (imm : Int) (rs2 rs1 funct3 : Nat) (opcode : Nat := 0x23) : Nat :=
  ((imm / 32 % 128).toNat <<< 25) ||| (rs2 <<< 20) ||| (rs1 <<< 15) ||| (funct3 <<< 12) |||
    ((imm % 32).toNat <<< 7) ||| opcode

/-- Encoder for B-format words, from gen_firmware.py: b_type.
The four scattered immediate fields imm12, imm10_5, imm4_1, imm11 are the
Python expressions `(imm >> 12) & 1`, `(imm >> 5) & 0x3F`, `(imm >> 1) & 0xF`,
`(imm >> 11) & 1`. -/
def b_type (imm : Int) (rs2 rs1 funct3 : Nat) (opcode : Nat := 0x63) : Nat :=
  ((imm / 4096 % 2).toNat <<< 31) ||| ((imm / 32 % 64).toNat <<< 25) ||| (rs2 <<< 20) |||
    (rs1 <<< 15) ||| (funct3 <<< 12) ||| ((imm / 2 % 16).toNat <<< 8) |||
    ((imm / 2048 % 2).toNat <<< 7) ||| opcode

/-- Encoder for U-format words, from gen_firmware.py: u_type.
Python `imm & 0xFFFF_F000` keeps bits 31:12 of the two's-complement integer,
i.e. it equals `((imm >> 12) & 0xFFFFF) << 12 = (imm / 4096 % 1048576) <<< 12`. -/
def u_type (imm : Int) (rd : Nat) (opcode : Nat := 0x37) : Nat :=
  ((imm / 4096 % 1048576).toNat <<< 12) ||| (rd <<< 7) ||| opcode

/-- Encoder for J-format words, from gen_firmware.py: j_type.
The four scattered immediate fields imm20, imm10_1, imm11, imm19_12 are the
Python expressions `(imm >> 20) & 1`, `(imm >> 1) & 0x3FF`, `(imm >> 11) & 1`,
`(imm >> 12) & 0xFF`. -/
def j_type (imm : Int) (rd : Nat) (opcode : Nat := 0x6F) : Nat :=
  ((imm / 1048576 % 2).toNat <<< 31) ||| ((imm / 2 % 1024).toNat <<< 21) |||
    ((imm / 2048 % 2).toNat <<< 20) ||| ((imm / 4096 % 256).toNat <<< 12) |||
    (rd <<< 7) ||| opcode

/-- Register aliases x0..x23 from gen_firmware.py. -/
def x0 : Nat := 0
def x1 : Nat := 1
def x2 : Nat := 2
def x3 : Nat := 3
def x4 : Nat := 4
def x5 : Nat := 5
def x6 : Nat := 6
def x7 : Nat := 7
def x8 : Nat := 8
def x9 : Nat := 9
def x10 : Nat := 10
def x11 : Nat := 11
def x12 : Nat := 12
def x13 : Nat := 13
def x14 : Nat := 14
def x15 : Nat := 15
def x16 : Nat := 16
def x17 : Nat := 17
def x18 : Nat := 18
def x19 : Nat := 19
def x20 : Nat := 20
def x21 : Nat := 21
def x22 : Nat := 22
def x23 : Nat := 23

/-- Mnemonic wrappers from gen_firmware.py, in source order. -/
def addi (rd rs1 : Nat) (imm : Int) : Nat := i_type imm rs1 0 rd 0x13
def add (rd rs1 rs2 : Nat) : Nat := r_type 0x00 rs2 rs1 0 rd 0x33
def sub (rd rs1 rs2 : Nat) : Nat := r_type 0x20 rs2 rs1 0 rd 0x33
def andi (rd rs1 : Nat) (imm : Int) : Nat := i_type imm rs1 7 rd 0x13
def ori (rd rs1 : Nat) (imm : Int) : Nat := i_type imm rs1 6 rd 0x13
def xori (rd rs1 : Nat) (imm : Int) : Nat := i_type imm rs1 4 rd 0x13
def slli (rd rs1 shamt : Nat) : Nat := i_type shamt rs1 1 rd 0x13
def srli (rd rs1 shamt : Nat) : Nat := i_type shamt rs1 5 rd 0x13
def srai (rd rs1 shamt : Nat) : Nat := i_type (0x400 ||| shamt : Nat) rs1 5 rd 0x13
def slti (rd rs1 : Nat) (imm : Int) : Nat := i_type imm rs1 2 rd 0x13
def slt (rd rs1 rs2 : Nat) : Nat := r_type 0x00 rs2 rs1 2 rd 0x33
def lui (rd : Nat) (imm : Int) : Nat := u_type imm rd 0x37
def auipc (rd : Nat) (imm : Int) : Nat := u_type imm rd 0x17
def sw (rs2 : Nat) (offset : Int) (rs1 : Nat) : Nat := s_type offset rs2 rs1 2 0x23
def sh (rs2 : Nat) (offset : Int) (rs1 : Nat) : Nat := s_type offset rs2 rs1 1 0x23
def sb (rs2 : Nat) (offset : Int) (rs1 : Nat) : Nat := s_type offset rs2 rs1 0 0x23
def lw (rd : Nat) (offset : Int) (rs1 : Nat) : Nat := i_type offset rs1 2 rd 0x03
def lh (rd : Nat) (offset : Int) (rs1 : Nat) : Nat := i_type offset rs1 1 rd 0x03
def lb (rd : Nat) (offset : Int) (rs1 : Nat) : Nat := i_type offset rs1 0 rd 0x03
def lbu (rd : Nat) (offset : Int) (rs1 : Nat) : Nat := i_type offset rs1 4 rd 0x03
def lhu (rd : Nat) (offset : Int) (rs1 : Nat) : Nat := i_type offset rs1 5 rd 0x03
def beq (rs1 rs2 : Nat) (off : Int) : Nat := b_type off rs2 rs1 0 0x63
def bne (rs1 rs2 : Nat) (off : Int) : Nat := b_type off rs2 rs1 1 0x63
def blt (rs1 rs2 : Nat) (off : Int) : Nat := b_type off rs2 rs1 4 0x63
def bge (rs1 rs2 : Nat) (off : Int) : Nat := b_type off rs2 rs1 5 0x63
def jal (rd : Nat) (off : Int) : Nat := j_type off rd 0x6F
def jalr (rd rs1 : Nat) (off : Int) : Nat := i_type off rs1 0 rd 0x67
def ecall : Nat := 0x00000073
def nop : Nat := addi x0 x0 0
def csrrw (rd csr rs1 : Nat) : Nat :=
  (csr <<< 20) ||| (rs1 <<< 15) ||| (1 <<< 12) ||| (rd <<< 7) ||| 0x73
def csrrs (rd csr rs1 : Nat) : Nat :=
  (csr <<< 20) ||| (rs1 <<< 15) ||| (2 <<< 12) ||| (rd <<< 7) ||| 0x73

/-- The test program list from gen_firmware.py, in source order. -/
def program : List Nat := [
  addi x1 x0 42,
  addi x2 x0 10,
  add x3 x1 x2,
  sub x4 x1 x2,
  andi x5 x3 0xFF,
  ori x6 x0 0x55,
  xori x7 x6 0xFF,
  slli x8 x2 4,
  srli x9 x8 2,
  slti x18 x4 100,
  slt x19 x2 x1,
  lui x10 0x10000000,
  sw x3 0 x10,
  lw x11 0 x10,
  sb x6 4 x10,
  lbu x12 4 x10,
  lui x13 0x20000000,
  addi x14 x0 0xFF,
  sw x14 8 x13,
  sw x3 0 x13,
  beq x11 x3 8,
  addi x15 x0 0xDE,
  addi x15 x0 1,
  bne x1 x2 8,
  addi x15 x0 0xDE,
  addi x15 x0 2,
  jal x16 8,
  addi x17 x0 0xDE,
  addi x17 x0 3,
  jalr x20 x16 0,
  lui x20 0x20000000,
  addi x20 x20 0x10C,
  addi x21 x0 8,
  sw x21 0 x20,
  lui x20 0x20000000,
  addi x20 x20 0x100,
  addi x22 x0 0x48,
  sw x22 0 x20,
  addi x23 x0 100,
  addi x23 x23 (-1),
  bne x23 x0 (-4),
  auipc x20 0x00000000,
  csrrs x21 0xB00 x0,
  ecall,
  nop,
  jal x0 (-4)]

/-- The in-place patch from gen_firmware.py: `program[18] = jalr(x20, x16, 12)`.
List.set models Python list item assignment. -/
def program_patched : List Nat := program.set 18 (jalr x20 x16 12)

/-- One hexadecimal digit character, uppercase, as produced by Python's X
format conversion. -/
def hexDigit (n : Nat) : Char :=
  if n < 10 then Char.ofNat (0x30 + n) else Char.ofNat (0x37 + n)

/-- Uppercase hexadecimal digit string (as a character list, most significant
digit first, no leading zeros beyond the mandatory single digit) of a natural
number, as produced by Python's X format conversion before padding. -/
def hexDigits (n : Nat) : List Char :=
  if n < 16 then [hexDigit n]
  else hexDigits (n / 16) ++ [hexDigit (n % 16)]
decreasing_by omega

/-- Python format spec 08X: the uppercase hexadecimal digits, left-padded
with the zero character to a minimum width of eight. -/
def format08X (n : Nat) : List Char :=
  List.replicate (8 - (hexDigits n).length) '0' ++ hexDigits n

/-- The serialization loop of gen_firmware.py: one line per word of the
program, each line the characters of `f"{instr & 0xFFFFFFFF:08X}"` (the line
body, excluding the newline terminator). -/
def serialize (prog : List Nat) : List (List Char) :=
  prog.map (fun instr => format08X (instr &&& 0xFFFFFFFF))

/-- Character class of the output digits: uppercase hexadecimal. -/
def isHexUpper (c : Char) : Bool :=
  ('0' ≤ c && c ≤ '9') || ('A' ≤ c && c ≤ 'F')

/-
Testbench model (test_brv32p_soc.py).  The DUT observation surface needed by
get_reg is the register file; resolving a register signal may fail (the
Python code reads `dut.u_core.u_regfile.regs[idx].value` inside try/except),
so a DUT state maps a register index to an optional value.
-/

/-- A DUT state as observed by the testbench helpers: the register-file
read-out, which may fail to resolve (None models a raised exception). -/
structure Dut where
  regs : Nat → Option Int

/-- Observer from test_brv32p_soc.py: get_reg.  Index 0 is answered as the
constant 0 before any DUT access; other indices read the register file and
may fail. -/
def get_reg (dut : Dut) (idx : Nat) : Option Int :=
  if idx = 0 then some 0 else dut.regs idx

/-- Loop body of wait_reg from test_brv32p_soc.py.  The trace `tr k` is the
DUT state as settled after the k-th rising clock edge following invocation
(`tr 0` is the state at the moment of invocation).  Each iteration first
consumes one rising edge, then samples get_reg; an observation failure is
swallowed (the try/except) and the loop continues.  The first component of
the result is the returned Bool, the second the number of edges consumed. -/
def wait_reg_go (tr : Nat → Dut) (idx : Nat) (val : Int) : Nat → Nat → Bool × Nat
  | e, 0 => (false, e)
  | e, fuel + 1 =>
    match get_reg (tr (e + 1)) idx with
    | some v => if v = val then (true, e + 1) else wait_reg_go tr idx val (e + 1) fuel
    | none => wait_reg_go tr idx val (e + 1) fuel

/-- Waiter wait_reg from test_brv32p_soc.py (the spec's wait_until_equals):
wait until register idx equals val, up to timeout rising edges. -/
def wait_reg (tr : Nat → Dut) (idx : Nat) (val : Int) (timeout : Nat := 50000) : Bool × Nat :=
  wait_reg_go tr idx val 0 timeout

/-- Loop body of wait_reg_nonzero from test_brv32p_soc.py; same shape as
wait_reg_go with the condition "observed value is nonzero". -/
def wait_reg_nonzero_go (tr : Nat → Dut) (idx : Nat) : Nat → Nat → Bool × Nat
  | e, 0 => (false, e)
  | e, fuel + 1 =>
    match get_reg (tr (e + 1)) idx with
    | some v => if v ≠ 0 then (true, e + 1) else wait_reg_nonzero_go tr idx (e + 1) fuel
    | none => wait_reg_nonzero_go tr idx (e + 1) fuel

/-- Waiter wait_reg_nonzero from test_brv32p_soc.py (the spec's
wait_until_nonzero). -/
def wait_reg_nonzero (tr : Nat → Dut) (idx : Nat) (timeout : Nat := 50000) : Bool × Nat :=
  wait_reg_nonzero_go tr idx 0 timeout

/-
Decoders.  Modelled from the spec: the bit layout table of section 4.1 (and
its section 8 round-trip property) defines how opcode, funct, register and
immediate fields are extracted from an encoded word, including sign
extension and reassembly of the scattered B/J immediate bits.  These are the
comparison point for the round-trip claims; they are not part of the Python
source.
-/

/-- Two's-complement sign extension of a width-bit field value. -/
def sx (width : Nat) (v : Nat) : Int :=
  (v : Int) - (if 2 ^ (width - 1) ≤ v then 2 ^ width else 0)

/-- Modelled from the spec: opcode field, bits 6:0. -/
def decode_opcode (w : Nat) : Nat := w % 128

/-- Modelled from the spec: rd field, bits 11:7. -/
def decode_rd (w : Nat) : Nat := w / 128 % 32

/-- Modelled from the spec: funct3 field, bits 14:12. -/
def decode_funct3 (w : Nat) : Nat := w / 4096 % 8

/-- Modelled from the spec: rs1 field, bits 19:15. -/
def decode_rs1 (w : Nat) : Nat := w / 32768 % 32

/-- Modelled from the spec: rs2 field, bits 24:20. -/
def decode_rs2 (w : Nat) : Nat := w / 1048576 % 32

/-- Modelled from the spec: funct7 field, bits 31:25. -/
def decode_funct7 (w : Nat) : Nat := w / 33554432 % 128

/-- Modelled from the spec: I-format immediate, bits 31:20, sign-extended
from 12 bits. -/
def decode_imm_i (w : Nat) : Int := sx 12 (w / 1048576 % 4096)

/-- Modelled from the spec: S-format immediate, imm11-5 at bits 31:25 and
imm4-0 at bits 11:7, sign-extended from 12 bits. -/
def decode_imm_s (w : Nat) : Int := sx 12 (w / 33554432 % 128 * 32 + w / 128 % 32)

/-- Modelled from the spec: B-format immediate, reassembled from imm12 at
bit 31, imm11 at bit 7, imm10-5 at bits 30:25 and imm4-1 at bits 11:8, with
a zero least-significant bit, sign-extended from 13 bits. -/
def decode_imm_b (w : Nat) : Int :=
  sx 13 (w / 2147483648 % 2 * 4096 + w / 128 % 2 * 2048 + w / 33554432 % 64 * 32 + w / 256 % 16 * 2)

/-- Modelled from the spec: U-format immediate, bits 31:12 pre-shifted to
occupy the top 20 bits, so the decoded immediate is those bits with twelve
low zeros. -/
def decode_imm_u (w : Nat) : Int := ((w / 4096 % 1048576 : Nat) : Int) * 4096

/-- Modelled from the spec: J-format immediate, reassembled from imm20 at
bit 31, imm19-12 at bits 19:12, imm11 at bit 20 and imm10-1 at bits 30:21,
with a zero least-significant bit, sign-extended from 21 bits. -/
def decode_imm_j (w : Nat) : Int :=
  sx 21 (w / 2147483648 % 2 * 1048576 + w / 4096 % 256 * 4096 + w / 1048576 % 2 * 2048 +
    w / 2097152 % 1024 * 2)

/-- A word is unchanged by the 32-bit serialization mask and lies in the
32-bit range. -/
def mask32_fixed (n : Nat) : Prop :=
  n < 4294967296 ∧ n &&& 0xFFFFFFFF = n

/-
Helper lemmas.  The encoders build words with lor of left-shifted fields;
whenever the fields are in range the pieces are disjoint and lor is
addition, which the following bridge lemma makes available field by field.
-/

theorem lor_shiftLeft_add (a : Nat) :
    ∀ (k b : Nat), b < 2 ^ k → a <<< k ||| b = a * 2 ^ k + b := by
  intro k
  induction k generalizing a with
  | zero =>
    intro b hb
    have : b = 0 := by omega
    subst this
    simp [Nat.shiftLeft_eq]
  | succ k ih =>
    intro b hb
    rw [pow_succ] at hb
    have h1 : a <<< (k + 1) = Nat.bit false (a <<< k) := by
      simp [Nat.shiftLeft_eq, Nat.bit, pow_succ]
      ring
    calc a <<< (k + 1) ||| b
        = Nat.bit false (a <<< k) ||| Nat.bit b.bodd b.div2 := by rw [Nat.bit_decomp, h1]
      _ = Nat.bit (false || b.bodd) ((a <<< k) ||| b.div2) := Nat.lor_bit ..
      _ = a * 2 ^ (k + 1) + b := by
          rw [Bool.false_or, Nat.bit_val, ih a b.div2 (by rw [Nat.div2_val]; omega)]
          have hd := Nat.bodd_add_div2 b
          rw [Nat.div2_val] at hd ⊢
          rw [pow_succ, ← mul_assoc]
          cases hbb : b.bodd
          · rw [hbb] at hd
            simp only [Bool.toNat_false, cond_false] at hd ⊢
            omega
          · rw [hbb] at hd
            simp only [Bool.toNat_true, cond_true] at hd ⊢
            omega

theorem r_type_sum (funct7 rs2 rs1 funct3 rd opcode : Nat)
    (h2 : rs2 < 32) (h1 : rs1 < 32) (h3 : funct3 < 8)
    (hd : rd < 32) (ho : opcode < 128) :
    r_type funct7 rs2 rs1 funct3 rd opcode =
      funct7 * 33554432 + rs2 * 1048576 + rs1 * 32768 + funct3 * 4096 + rd * 128 + opcode := by
  unfold r_type
  rw [Nat.lor_assoc, Nat.lor_assoc, Nat.lor_assoc, Nat.lor_assoc,
      lor_shiftLeft_add rd 7 opcode (by omega),
      lor_shiftLeft_add funct3 12 _ (by omega),
      lor_shiftLeft_add rs1 15 _ (by omega),
      lor_shiftLeft_add rs2 20 _ (by omega),
      lor_shiftLeft_add funct7 25 _ (by omega)]
  norm_num
  omega

theorem i_type_sum (imm : Int) (rs1 funct3 rd opcode : Nat)
    (h1 : rs1 < 32) (h3 : funct3 < 8) (hd : rd < 32) (ho : opcode < 128) :
    i_type imm rs1 funct3 rd opcode =
      (imm % 4096).toNat * 1048576 + rs1 * 32768 + funct3 * 4096 + rd * 128 + opcode := by
  unfold i_type
  rw [Nat.lor_assoc, Nat.lor_assoc, Nat.lor_assoc,
      lor_shiftLeft_add rd 7 opcode (by omega),
      lor_shiftLeft_add funct3 12 _ (by omega),
      lor_shiftLeft_add rs1 15 _ (by omega),
      lor_shiftLeft_add _ 20 _ (by omega)]
  norm_num
  omega

theorem s_type_sum (imm : Int) (rs2 rs1 funct3 opcode : Nat)
    (h2 : rs2 < 32) (h1 : rs1 < 32) (h3 : funct3 < 8) (ho : opcode < 128) :
    s_type imm rs2 rs1 funct3 opcode =
      (imm / 32 % 128).toNat * 33554432 + rs2 * 1048576 + rs1 * 32768 + funct3 * 4096 +
        (imm % 32).toNat * 128 + opcode := by
  unfold s_type
  have ha : (imm % 32).toNat < 32 := by omega
  rw [Nat.lor_assoc, Nat.lor_assoc, Nat.lor_assoc, Nat.lor_assoc,
      lor_shiftLeft_add _ 7 opcode (by omega),
      lor_shiftLeft_add funct3 12 _ (by omega),
      lor_shiftLeft_add rs1 15 _ (by omega),
      lor_shiftLeft_add rs2 20 _ (by omega),
      lor_shiftLeft_add _ 25 _ (by omega)]
  norm_num
  omega

theorem b_type_sum (imm : Int) (rs2 rs1 funct3 opcode : Nat)
    (h2 : rs2 < 32) (h1 : rs1 < 32) (h3 : funct3 < 8) (ho : opcode < 128) :
    b_type imm rs2 rs1 funct3 opcode =
      (imm / 4096 % 2).toNat * 2147483648 + (imm / 32 % 64).toNat * 33554432 +
        rs2 * 1048576 + rs1 * 32768 + funct3 * 4096 + (imm / 2 % 16).toNat * 256 +
        (imm / 2048 % 2).toNat * 128 + opcode := by
  unfold b_type
  have ha : (imm / 2048 % 2).toNat < 2 := by omega
  have hb : (imm / 2 % 16).toNat < 16 := by omega
  have hc : (imm / 32 % 64).toNat < 64 := by omega
  rw [Nat.lor_assoc, Nat.lor_assoc, Nat.lor_assoc, Nat.lor_assoc, Nat.lor_assoc, Nat.lor_assoc,
      lor_shiftLeft_add _ 7 opcode (by omega),
      lor_shiftLeft_add _ 8 _ (by omega),
      lor_shiftLeft_add funct3 12 _ (by omega),
      lor_shiftLeft_add rs1 15 _ (by omega),
      lor_shiftLeft_add rs2 20 _ (by omega),
      lor_shiftLeft_add _ 25 _ (by omega),
      lor_shiftLeft_add _ 31 _ (by omega)]
  norm_num
  omega

theorem u_type_sum (imm : Int) (rd opcode : Nat) (hd : rd < 32) (ho : opcode < 128) :
    u_type imm rd opcode = (imm / 4096 % 1048576).toNat * 4096 + rd * 128 + opcode := by
  unfold u_type
  rw [Nat.lor_assoc,
      lor_shiftLeft_add rd 7 opcode (by omega),
      lor_shiftLeft_add _ 12 _ (by omega)]
  norm_num
  omega

theorem j_type_sum (imm : Int) (rd opcode : Nat) (hd : rd < 32) (ho : opcode < 128) :
    j_type imm rd opcode =
      (imm / 1048576 % 2).toNat * 2147483648 + (imm / 2 % 1024).toNat * 2097152 +
        (imm / 2048 % 2).toNat * 1048576 + (imm / 4096 % 256).toNat * 4096 +
        rd * 128 + opcode := by
  unfold j_type
  have ha : (imm / 4096 % 256).toNat < 256 := by omega
  have hb : (imm / 2048 % 2).toNat < 2 := by omega
  have hc : (imm / 2 % 1024).toNat < 1024 := by omega
  rw [Nat.lor_assoc, Nat.lor_assoc, Nat.lor_assoc, Nat.lor_assoc,
      lor_shiftLeft_add rd 7 opcode (by omega),
      lor_shiftLeft_add _ 12 _ (by omega),
      lor_shiftLeft_add _ 20 _ (by omega),
      lor_shiftLeft_add _ 21 _ (by omega),
      lor_shiftLeft_add _ 31 _ (by omega)]
  norm_num
  omega

theorem csrrw_sum (rd csr rs1 : Nat) (hd : rd < 32) (h1 : rs1 < 32) :
    csrrw rd csr rs1 = csr * 1048576 + rs1 * 32768 + 4096 + rd * 128 + 0x73 := by
  unfold csrrw
  rw [Nat.lor_assoc, Nat.lor_assoc, Nat.lor_assoc,
      lor_shiftLeft_add rd 7 0x73 (by omega),
      lor_shiftLeft_add 1 12 _ (by omega),
      lor_shiftLeft_add rs1 15 _ (by omega),
      lor_shiftLeft_add csr 20 _ (by omega)]
  norm_num
  omega

theorem csrrs_sum (rd csr rs1 : Nat) (hd : rd < 32) (h1 : rs1 < 32) :
    csrrs rd csr rs1 = csr * 1048576 + rs1 * 32768 + 8192 + rd * 128 + 0x73 := by
  unfold csrrs
  rw [Nat.lor_assoc, Nat.lor_assoc, Nat.lor_assoc,
      lor_shiftLeft_add rd 7 0x73 (by omega),
      lor_shiftLeft_add 2 12 _ (by omega),
      lor_shiftLeft_add rs1 15 _ (by omega),
      lor_shiftLeft_add csr 20 _ (by omega)]
  norm_num
  omega

theorem and_mask32 (n : Nat) : n &&& 0xFFFFFFFF = n % 4294967296 := by
  have h := Nat.and_pow_two_sub_one_eq_mod n 32
  norm_num at h
  exact h

theorem mask32_fixed_of_lt (n : Nat) (h : n < 4294967296) : mask32_fixed n :=
  ⟨h, by rw [and_mask32, Nat.mod_eq_of_lt h]⟩

theorem r_type_lt (funct7 rs2 rs1 funct3 rd opcode : Nat)
    (h7 : funct7 < 128) (h2 : rs2 < 32) (h1 : rs1 < 32) (h3 : funct3 < 8)
    (hd : rd < 32) (ho : opcode < 128) :
    r_type funct7 rs2 rs1 funct3 rd opcode < 4294967296 := by
  rw [r_type_sum funct7 rs2 rs1 funct3 rd opcode h2 h1 h3 hd ho]
  omega

theorem i_type_lt (imm : Int) (rs1 funct3 rd opcode : Nat)
    (h1 : rs1 < 32) (h3 : funct3 < 8) (hd : rd < 32) (ho : opcode < 128) :
    i_type imm rs1 funct3 rd opcode < 4294967296 := by
  rw [i_type_sum imm rs1 funct3 rd opcode h1 h3 hd ho]
  omega

theorem s_type_lt (imm : Int) (rs2 rs1 funct3 opcode : Nat)
    (h2 : rs2 < 32) (h1 : rs1 < 32) (h3 : funct3 < 8) (ho : opcode < 128) :
    s_type imm rs2 rs1 funct3 opcode < 4294967296 := by
  rw [s_type_sum imm rs2 rs1 funct3 opcode h2 h1 h3 ho]
  omega

theorem b_type_lt (imm : Int) (rs2 rs1 funct3 opcode : Nat)
    (h2 : rs2 < 32) (h1 : rs1 < 32) (h3 : funct3 < 8) (ho : opcode < 128) :
    b_type imm rs2 rs1 funct3 opcode < 4294967296 := by
  rw [b_type_sum imm rs2 rs1 funct3 opcode h2 h1 h3 ho]
  omega

theorem u_type_lt (imm : Int) (rd opcode : Nat) (hd : rd < 32) (ho : opcode < 128) :
    u_type imm rd opcode < 4294967296 := by
  rw [u_type_sum imm rd opcode hd ho]
  omega

theorem j_type_lt (imm : Int) (rd opcode : Nat) (hd : rd < 32) (ho : opcode < 128) :
    j_type imm rd opcode < 4294967296 := by
  rw [j_type_sum imm rd opcode hd ho]
  omega

theorem csrrw_lt (rd csr rs1 : Nat) (hd : rd < 32) (hc : csr < 4096) (h1 : rs1 < 32) :
    csrrw rd csr rs1 < 4294967296 := by
  rw [csrrw_sum rd csr rs1 hd h1]
  omega

theorem csrrs_lt (rd csr rs1 : Nat) (hd : rd < 32) (hc : csr < 4096) (h1 : rs1 < 32) :
    csrrs rd csr rs1 < 4294967296 := by
  rw [csrrs_sum rd csr rs1 hd h1]
  omega

/-- C3 (code bug): the post-hoc patch `program[18] = jalr(x20, x16, 12)` does
not rewrite the previously emitted JALR word.  The word at index 18 (byte
address 0x48) is the GPIO-direction store sw x14, 8(x13); the word encoding
jalr(x20, x16, 0) sits at index 29 (byte address 0x74, as the source's own
address comments state) and survives the patch unchanged. -/
theorem C3_patch_misses_jalr :
    program.length = 46 ∧ program_patched.length = 46 ∧
    program.get? 18 = some (sw x14 8 x13) ∧
    program.get? 29 = some (jalr x20 x16 0) ∧
    program_patched.get? 18 = some (jalr x20 x16 12) ∧
    program_patched.get? 29 = some (jalr x20 x16 0) ∧
    sw x14 8 x13 ≠ jalr x20 x16 0 := by
  refine ⟨rfl, rfl, rfl, rfl, rfl, rfl, by decide⟩

/-- C5: every encoder is total (it is a Lean function into Nat, returning
normally on every integer immediate), and out-of-range immediates are
silently reduced to their field bits: i_type and s_type depend on the
immediate only through imm mod 2^12, b_type only through bits 12:1, u_type
only through bits 31:12, and j_type only through bits 20:1. -/
theorem C5_immediate_truncation (imm : Int) (rs2 rs1 funct3 rd opcode : Nat) :
    i_type imm rs1 funct3 rd opcode = i_type (imm % 4096) rs1 funct3 rd opcode ∧
    s_type imm rs2 rs1 funct3 opcode = s_type (imm % 4096) rs2 rs1 funct3 opcode ∧
    (∀ imm2 : Int, imm / 2 % 4096 = imm2 / 2 % 4096 →
      b_type imm rs2 rs1 funct3 opcode = b_type imm2 rs2 rs1 funct3 opcode) ∧
    (∀ imm2 : Int, imm / 4096 % 1048576 = imm2 / 4096 % 1048576 →
      u_type imm rd opcode = u_type imm2 rd opcode) ∧
    (∀ imm2 : Int, imm / 2 % 1048576 = imm2 / 2 % 1048576 →
      j_type imm rd opcode = j_type imm2 rd opcode) := by
  refine ⟨?_, ?_, ?_, ?_, ?_⟩
  · have e1 : (imm % 4096 % 4096).toNat = (imm % 4096).toNat := by omega
    simp only [i_type, e1]
  · have e1 : (imm % 4096 / 32 % 128).toNat = (imm / 32 % 128).toNat := by omega
    have e2 : (imm % 4096 % 32).toNat = (imm % 32).toNat := by omega
    simp only [s_type, e1, e2]
  · intro imm2 h
    have e1 : (imm / 4096 % 2).toNat = (imm2 / 4096 % 2).toNat := by omega
    have e2 : (imm / 32 % 64).toNat = (imm2 / 32 % 64).toNat := by omega
    have e3 : (imm / 2 % 16).toNat = (imm2 / 2 % 16).toNat := by omega
    have e4 : (imm / 2048 % 2).toNat = (imm2 / 2048 % 2).toNat := by omega
    simp only [b_type, e1, e2, e3, e4]
  · intro imm2 h
    simp only [u_type, h]
  · intro imm2 h
    have e1 : (imm / 1048576 % 2).toNat = (imm2 / 1048576 % 2).toNat := by omega
    have e2 : (imm / 2 % 1024).toNat = (imm2 / 2 % 1024).toNat := by omega
    have e3 : (imm / 2048 % 2).toNat = (imm2 / 2048 % 2).toNat := by omega
    have e4 : (imm / 4096 % 256).toNat = (imm2 / 4096 % 256).toNat := by omega
    simp only [j_type, e1, e2, e3, e4]

/-- Witness for C5 at concrete inputs: imm = -1 reduces to 4095 for i_type,
and b_type cannot distinguish -1 from 8191 (equal bits 12:1). -/
theorem C5_immediate_truncation_witness :
    i_type (-1) 3 0 4 19 = i_type (-1 % 4096) 3 0 4 19 ∧
    b_type (-1) 2 3 0 19 = b_type 8191 2 3 0 19 := by
  have h := C5_immediate_truncation (-1) 2 3 0 4 19
  exact ⟨h.1, h.2.2.1 8191 (by decide)⟩

/-- C6: the immediate reconstructed from any B-format or J-format encoded
word (per the section 4.1 layout, LSB held zero) is always even, for every
integer immediate and all register / funct operands. -/
theorem C6_bj_reconstructed_imm_even (imm : Int) (rs2 rs1 funct3 rd opcode : Nat) :
    decode_imm_b (b_type imm rs2 rs1 funct3 opcode) % 2 = 0 ∧
    decode_imm_j (j_type imm rd opcode) % 2 = 0 := by
  refine ⟨?_, ?_⟩
  · unfold decode_imm_b sx
    split <;> omega
  · unfold decode_imm_j sx
    split <;> omega

/-- C7: encoding ADDI x1, x0, 42 yields exactly 0x02A00093. -/
theorem C7_addi_x1_x0_42 :
    addi 1 0 42 = 0x02A00093 ∧ i_type 42 0 0 1 0x13 = 0x02A00093 := by
  exact ⟨rfl, rfl⟩

/-
Field extraction on abstract words in sum form, one lemma per format.
These are Nat-only statements that omega dispatches directly.
-/

theorem fields_of_r_word (w funct7 rs2 rs1 funct3 rd opcode : Nat)
    (h7 : funct7 < 128) (h2 : rs2 < 32) (h1 : rs1 < 32) (h3 : funct3 < 8)
    (hd : rd < 32) (ho : opcode < 128)
    (hw : w = funct7 * 33554432 + rs2 * 1048576 + rs1 * 32768 + funct3 * 4096 +
      rd * 128 + opcode) :
    w % 128 = opcode ∧ w / 128 % 32 = rd ∧ w / 4096 % 8 = funct3 ∧ w / 32768 % 32 = rs1 ∧
      w / 1048576 % 32 = rs2 ∧ w / 33554432 % 128 = funct7 :=
  ⟨by omega, by omega, by omega, by omega, by omega, by omega⟩

theorem fields_of_i_word (w M rs1 funct3 rd opcode : Nat)
    (hM : M < 4096) (h1 : rs1 < 32) (h3 : funct3 < 8) (hd : rd < 32) (ho : opcode < 128)
    (hw : w = M * 1048576 + rs1 * 32768 + funct3 * 4096 + rd * 128 + opcode) :
    w % 128 = opcode ∧ w / 128 % 32 = rd ∧ w / 4096 % 8 = funct3 ∧ w / 32768 % 32 = rs1 ∧
      w / 1048576 % 4096 = M :=
  ⟨by omega, by omega, by omega, by omega, by omega⟩

theorem fields_of_s_word (w A B rs2 rs1 funct3 opcode : Nat)
    (hA : A < 128) (hB : B < 32) (h2 : rs2 < 32) (h1 : rs1 < 32) (h3 : funct3 < 8)
    (ho : opcode < 128)
    (hw : w = A * 33554432 + rs2 * 1048576 + rs1 * 32768 + funct3 * 4096 + B * 128 + opcode) :
    w % 128 = opcode ∧ w / 4096 % 8 = funct3 ∧ w / 32768 % 32 = rs1 ∧ w / 1048576 % 32 = rs2 ∧
      w / 33554432 % 128 = A ∧ w / 128 % 32 = B :=
  ⟨by omega, by omega, by omega, by omega, by omega, by omega⟩

theorem fields_of_b_word (w A B C D rs2 rs1 funct3 opcode : Nat)
    (hA : A < 2) (hB : B < 64) (hC : C < 16) (hD : D < 2)
    (h2 : rs2 < 32) (h1 : rs1 < 32) (h3 : funct3 < 8) (ho : opcode < 128)
    (hw : w = A * 2147483648 + B * 33554432 + rs2 * 1048576 + rs1 * 32768 + funct3 * 4096 +
      C * 256 + D * 128 + opcode) :
    w % 128 = opcode ∧ w / 4096 % 8 = funct3 ∧ w / 32768 % 32 = rs1 ∧ w / 1048576 % 32 = rs2 ∧
      w / 2147483648 % 2 = A ∧ w / 33554432 % 64 = B ∧ w / 256 % 16 = C ∧ w / 128 % 2 = D :=
  ⟨by omega, by omega, by omega, by omega, by omega, by omega, by omega, by omega⟩

theorem fields_of_u_word (w M rd opcode : Nat)
    (hM : M < 1048576) (hd : rd < 32) (ho : opcode < 128)
    (hw : w = M * 4096 + rd * 128 + opcode) :
    w % 128 = opcode ∧ w / 128 % 32 = rd ∧ w / 4096 % 1048576 = M :=
  ⟨by omega, by omega, by omega⟩

theorem fields_of_j_word (w A B C D rd opcode : Nat)
    (hA : A < 2) (hB : B < 1024) (hC : C < 2) (hD : D < 256)
    (hd : rd < 32) (ho : opcode < 128)
    (hw : w = A * 2147483648 + B * 2097152 + C * 1048576 + D * 4096 + rd * 128 + opcode) :
    w % 128 = opcode ∧ w / 128 % 32 = rd ∧ w / 2147483648 % 2 = A ∧ w / 2097152 % 1024 = B ∧
      w / 1048576 % 2 = C ∧ w / 4096 % 256 = D :=
  ⟨by omega, by omega, by omega, by omega, by omega, by omega⟩

theorem i_type_imm_roundtrip (immI : Int) (rs1 funct3 rd opcode : Nat)
    (h1 : rs1 < 32) (h3 : funct3 < 8) (hd : rd < 32) (ho : opcode < 128)
    (hI1 : -2048 ≤ immI) (hI2 : immI < 2048) :
    decode_imm_i (i_type immI rs1 funct3 rd opcode) = immI := by
  have ei := fields_of_i_word _ _ rs1 funct3 rd opcode (by omega) h1 h3 hd ho
    (i_type_sum immI rs1 funct3 rd opcode h1 h3 hd ho)
  rw [decode_imm_i, ei.2.2.2.2]
  clear ei
  rw [sx]
  split <;> omega

theorem s_type_imm_roundtrip (immS : Int) (rs2 rs1 funct3 opcode : Nat)
    (h2 : rs2 < 32) (h1 : rs1 < 32) (h3 : funct3 < 8) (ho : opcode < 128)
    (hS1 : -2048 ≤ immS) (hS2 : immS < 2048) :
    decode_imm_s (s_type immS rs2 rs1 funct3 opcode) = immS := by
  have es := fields_of_s_word _ _ _ rs2 rs1 funct3 opcode (by omega) (by omega) h2 h1 h3 ho
    (s_type_sum immS rs2 rs1 funct3 opcode h2 h1 h3 ho)
  rw [decode_imm_s, es.2.2.2.2.1, es.2.2.2.2.2]
  clear es
  rw [sx]
  split <;> omega

theorem b_type_imm_roundtrip (immB : Int) (rs2 rs1 funct3 opcode : Nat)
    (h2 : rs2 < 32) (h1 : rs1 < 32) (h3 : funct3 < 8) (ho : opcode < 128)
    (hB1 : -4096 ≤ immB) (hB2 : immB < 4096) (hB3 : immB % 2 = 0) :
    decode_imm_b (b_type immB rs2 rs1 funct3 opcode) = immB := by
  have eb := fields_of_b_word _ _ _ _ _ rs2 rs1 funct3 opcode (by omega) (by omega) (by omega)
    (by omega) h2 h1 h3 ho (b_type_sum immB rs2 rs1 funct3 opcode h2 h1 h3 ho)
  rw [decode_imm_b, eb.2.2.2.2.1, eb.2.2.2.2.2.1, eb.2.2.2.2.2.2.1, eb.2.2.2.2.2.2.2]
  clear eb
  rw [sx]
  split <;> omega

theorem u_type_imm_roundtrip (immU : Int) (rd opcode : Nat)
    (hd : rd < 32) (ho : opcode < 128)
    (hU1 : 0 ≤ immU) (hU2 : immU < 4294967296) (hU3 : immU % 4096 = 0) :
    decode_imm_u (u_type immU rd opcode) = immU := by
  have eu := fields_of_u_word _ _ rd opcode (by omega) hd ho (u_type_sum immU rd opcode hd ho)
  rw [decode_imm_u, eu.2.2]
  clear eu
  omega

theorem j_type_imm_roundtrip (immJ : Int) (rd opcode : Nat)
    (hd : rd < 32) (ho : opcode < 128)
    (hJ1 : -1048576 ≤ immJ) (hJ2 : immJ < 1048576) (hJ3 : immJ % 2 = 0) :
    decode_imm_j (j_type immJ rd opcode) = immJ := by
  have ej := fields_of_j_word _ _ _ _ _ rd opcode (by omega) (by omega) (by omega) (by omega)
    hd ho (j_type_sum immJ rd opcode hd ho)
  rw [decode_imm_j, ej.2.2.1, ej.2.2.2.1, ej.2.2.2.2.1, ej.2.2.2.2.2]
  clear ej
  rw [sx]
  split <;> omega

/-- C4: for every format encoder, with register indices in 0..31, funct3 in
0..7, funct7 in 0..127, opcode in 0..127 and an in-range immediate of its
field (signed 12-bit for I and S, even signed 13-bit for B, even signed
21-bit for J, a value with only bits 31:12 set for U; all boundary values
included), extracting the opcode, funct, register and immediate fields of
the encoded word per the section 4.1 bit layout, including sign extension
and reassembly of the scattered B/J immediate bits, reproduces the original
symbolic operands. -/
theorem C4_encode_decode_roundtrip
    (funct7 rs2 rs1 funct3 rd opcode : Nat) (immI immS immB immU immJ : Int)
    (h7 : funct7 < 128) (h2 : rs2 < 32) (h1 : rs1 < 32) (h3 : funct3 < 8)
    (hd : rd < 32) (ho : opcode < 128)
    (hI : -2048 ≤ immI ∧ immI < 2048)
    (hS : -2048 ≤ immS ∧ immS < 2048)
    (hB : -4096 ≤ immB ∧ immB < 4096 ∧ immB % 2 = 0)
    (hU : 0 ≤ immU ∧ immU < 4294967296 ∧ immU % 4096 = 0)
    (hJ : -1048576 ≤ immJ ∧ immJ < 1048576 ∧ immJ % 2 = 0) :
    (decode_opcode (r_type funct7 rs2 rs1 funct3 rd opcode) = opcode ∧
     decode_rd (r_type funct7 rs2 rs1 funct3 rd opcode) = rd ∧
     decode_funct3 (r_type funct7 rs2 rs1 funct3 rd opcode) = funct3 ∧
     decode_rs1 (r_type funct7 rs2 rs1 funct3 rd opcode) = rs1 ∧
     decode_rs2 (r_type funct7 rs2 rs1 funct3 rd opcode) = rs2 ∧
     decode_funct7 (r_type funct7 rs2 rs1 funct3 rd opcode) = funct7) ∧
    (decode_opcode (i_type immI rs1 funct3 rd opcode) = opcode ∧
     decode_rd (i_type immI rs1 funct3 rd opcode) = rd ∧
     decode_funct3 (i_type immI rs1 funct3 rd opcode) = funct3 ∧
     decode_rs1 (i_type immI rs1 funct3 rd opcode) = rs1 ∧
     decode_imm_i (i_type immI rs1 funct3 rd opcode) = immI) ∧
    (decode_opcode (s_type immS rs2 rs1 funct3 opcode) = opcode ∧
     decode_funct3 (s_type immS rs2 rs1 funct3 opcode) = funct3 ∧
     decode_rs1 (s_type immS rs2 rs1 funct3 opcode) = rs1 ∧
     decode_rs2 (s_type immS rs2 rs1 funct3 opcode) = rs2 ∧
     decode_imm_s (s_type immS rs2 rs1 funct3 opcode) = immS) ∧
    (decode_opcode (b_type immB rs2 rs1 funct3 opcode) = opcode ∧
     decode_funct3 (b_type immB rs2 rs1 funct3 opcode) = funct3 ∧
     decode_rs1 (b_type immB rs2 rs1 funct3 opcode) = rs1 ∧
     decode_rs2 (b_type immB rs2 rs1 funct3 opcode) = rs2 ∧
     decode_imm_b (b_type immB rs2 rs1 funct3 opcode) = immB) ∧
    (decode_opcode (u_type immU rd opcode) = opcode ∧
     decode_rd (u_type immU rd opcode) = rd ∧
     decode_imm_u (u_type immU rd opcode) = immU) ∧
    (decode_opcode (j_type immJ rd opcode) = opcode ∧
     decode_rd (j_type immJ rd opcode) = rd ∧
     decode_imm_j (j_type immJ rd opcode) = immJ) := by
  obtain ⟨hI1, hI2⟩ := hI
  obtain ⟨hS1, hS2⟩ := hS
  obtain ⟨hB1, hB2, hB3⟩ := hB
  obtain ⟨hU1, hU2, hU3⟩ := hU
  obtain ⟨hJ1, hJ2, hJ3⟩ := hJ
  have bi : (immI % 4096).toNat < 4096 := by omega
  have bs1 : (immS / 32 % 128).toNat < 128 := by omega
  have bs2 : (immS % 32).toNat < 32 := by omega
  have bb1 : (immB / 4096 % 2).toNat < 2 := by omega
  have bb2 : (immB / 32 % 64).toNat < 64 := by omega
  have bb3 : (immB / 2 % 16).toNat < 16 := by omega
  have bb4 : (immB / 2048 % 2).toNat < 2 := by omega
  have bu : (immU / 4096 % 1048576).toNat < 1048576 := by omega
  have bj1 : (immJ / 1048576 % 2).toNat < 2 := by omega
  have bj2 : (immJ / 2 % 1024).toNat < 1024 := by omega
  have bj3 : (immJ / 2048 % 2).toNat < 2 := by omega
  have bj4 : (immJ / 4096 % 256).toNat < 256 := by omega
  have er := fields_of_r_word _ funct7 rs2 rs1 funct3 rd opcode h7 h2 h1 h3 hd ho
    (r_type_sum funct7 rs2 rs1 funct3 rd opcode h2 h1 h3 hd ho)
  have ei := fields_of_i_word _ _ rs1 funct3 rd opcode bi h1 h3 hd ho
    (i_type_sum immI rs1 funct3 rd opcode h1 h3 hd ho)
  have es := fields_of_s_word _ _ _ rs2 rs1 funct3 opcode bs1 bs2 h2 h1 h3 ho
    (s_type_sum immS rs2 rs1 funct3 opcode h2 h1 h3 ho)
  have eb := fields_of_b_word _ _ _ _ _ rs2 rs1 funct3 opcode bb1 bb2 bb3
    bb4 h2 h1 h3 ho (b_type_sum immB rs2 rs1 funct3 opcode h2 h1 h3 ho)
  have eu := fields_of_u_word _ _ rd opcode bu hd ho (u_type_sum immU rd opcode hd ho)
  have ej := fields_of_j_word _ _ _ _ _ rd opcode bj1 bj2 bj3 bj4
    hd ho (j_type_sum immJ rd opcode hd ho)
  exact ⟨⟨er.1, er.2.1, er.2.2.1, er.2.2.2.1, er.2.2.2.2.1, er.2.2.2.2.2⟩,
    ⟨ei.1, ei.2.1, ei.2.2.1, ei.2.2.2.1,
      i_type_imm_roundtrip immI rs1 funct3 rd opcode h1 h3 hd ho hI1 hI2⟩,
    ⟨es.1, es.2.1, es.2.2.1, es.2.2.2.1,
      s_type_imm_roundtrip immS rs2 rs1 funct3 opcode h2 h1 h3 ho hS1 hS2⟩,
    ⟨eb.1, eb.2.1, eb.2.2.1, eb.2.2.2.1,
      b_type_imm_roundtrip immB rs2 rs1 funct3 opcode h2 h1 h3 ho hB1 hB2 hB3⟩,
    ⟨eu.1, eu.2.1, u_type_imm_roundtrip immU rd opcode hd ho hU1 hU2 hU3⟩,
    ⟨ej.1, ej.2.1, j_type_imm_roundtrip immJ rd opcode hd ho hJ1 hJ2 hJ3⟩⟩

/-- Witness for C4 at concrete boundary inputs: the R fields and the
J-format minimum immediate round-trip. -/
theorem C4_encode_decode_roundtrip_witness :
    decode_opcode (r_type 127 31 0 7 1 99) = 99 ∧
    decode_imm_j (j_type (-1048576) 1 99) = -1048576 := by
  have h := C4_encode_decode_roundtrip 127 31 0 7 1 99 (-1) (-2048) 4094 4294963200 (-1048576)
    (by norm_num) (by norm_num) (by norm_num) (by norm_num) (by norm_num) (by norm_num)
    (by norm_num) (by norm_num) (by norm_num) (by norm_num) (by norm_num)
  exact ⟨h.1.1, h.2.2.2.2.2.2.2⟩

/-- C10: with register indices below 32, funct3 below 8, funct7 below 128,
opcode below 128, csr below 4096, shamt below 32 and any integer immediate,
every format encoder and every mnemonic wrapper returns a word in the range
0 to 2^32 - 1, so the serialization-time mask with 0xFFFFFFFF leaves the
word unchanged. -/
theorem C10_words_unchanged_by_mask32
    (funct7 rs2 rs1 funct3 rd opcode csr shamt : Nat) (imm : Int)
    (h7 : funct7 < 128) (h2 : rs2 < 32) (h1 : rs1 < 32) (h3 : funct3 < 8) (hd : rd < 32)
    (ho : opcode < 128) (hc : csr < 4096) (_hsh : shamt < 32) :
    mask32_fixed (r_type funct7 rs2 rs1 funct3 rd opcode) ∧
    mask32_fixed (i_type imm rs1 funct3 rd opcode) ∧
    mask32_fixed (s_type imm rs2 rs1 funct3 opcode) ∧
    mask32_fixed (b_type imm rs2 rs1 funct3 opcode) ∧
    mask32_fixed (u_type imm rd opcode) ∧
    mask32_fixed (j_type imm rd opcode) ∧
    mask32_fixed (addi rd rs1 imm) ∧
    mask32_fixed (add rd rs1 rs2) ∧
    mask32_fixed (sub rd rs1 rs2) ∧
    mask32_fixed (andi rd rs1 imm) ∧
    mask32_fixed (ori rd rs1 imm) ∧
    mask32_fixed (xori rd rs1 imm) ∧
    mask32_fixed (slli rd rs1 shamt) ∧
    mask32_fixed (srli rd rs1 shamt) ∧
    mask32_fixed (srai rd rs1 shamt) ∧
    mask32_fixed (slti rd rs1 imm) ∧
    mask32_fixed (slt rd rs1 rs2) ∧
    mask32_fixed (lui rd imm) ∧
    mask32_fixed (auipc rd imm) ∧
    mask32_fixed (sw rs2 imm rs1) ∧
    mask32_fixed (sh rs2 imm rs1) ∧
    mask32_fixed (sb rs2 imm rs1) ∧
    mask32_fixed (lw rd imm rs1) ∧
    mask32_fixed (lh rd imm rs1) ∧
    mask32_fixed (lb rd imm rs1) ∧
    mask32_fixed (lbu rd imm rs1) ∧
    mask32_fixed (lhu rd imm rs1) ∧
    mask32_fixed (beq rs1 rs2 imm) ∧
    mask32_fixed (bne rs1 rs2 imm) ∧
    mask32_fixed (blt rs1 rs2 imm) ∧
    mask32_fixed (bge rs1 rs2 imm) ∧
    mask32_fixed (jal rd imm) ∧
    mask32_fixed (jalr rd rs1 imm) ∧
    mask32_fixed ecall ∧
    mask32_fixed nop ∧
    mask32_fixed (csrrw rd csr rs1) ∧
    mask32_fixed (csrrs rd csr rs1) := by
  have e0 : (0 : Nat) < 32 := by norm_num
  have e3 : (3 : Nat) < 128 := by norm_num
  have e8 : (0 : Nat) < 8 := by norm_num
  have f0 : (0 : Nat) < 8 := by norm_num
  have f1 : (1 : Nat) < 8 := by norm_num
  have f2 : (2 : Nat) < 8 := by norm_num
  have f4 : (4 : Nat) < 8 := by norm_num
  have f5 : (5 : Nat) < 8 := by norm_num
  have f6 : (6 : Nat) < 8 := by norm_num
  have f7' : (7 : Nat) < 8 := by norm_num
  have g19 : (0x13 : Nat) < 128 := by norm_num
  have g51 : (0x33 : Nat) < 128 := by norm_num
  have g35 : (0x23 : Nat) < 128 := by norm_num
  have g03 : (0x03 : Nat) < 128 := by norm_num
  have g99 : (0x63 : Nat) < 128 := by norm_num
  have g55 : (0x37 : Nat) < 128 := by norm_num
  have g23 : (0x17 : Nat) < 128 := by norm_num
  have g111 : (0x6F : Nat) < 128 := by norm_num
  have g103 : (0x67 : Nat) < 128 := by norm_num
  have hz : (0x00 : Nat) < 128 := by norm_num
  have hx : (0x20 : Nat) < 128 := by norm_num
  exact ⟨mask32_fixed_of_lt _ (r_type_lt _ _ _ _ _ _ h7 h2 h1 h3 hd ho),
    mask32_fixed_of_lt _ (i_type_lt _ _ _ _ _ h1 h3 hd ho),
    mask32_fixed_of_lt _ (s_type_lt _ _ _ _ _ h2 h1 h3 ho),
    mask32_fixed_of_lt _ (b_type_lt _ _ _ _ _ h2 h1 h3 ho),
    mask32_fixed_of_lt _ (u_type_lt _ _ _ hd ho),
    mask32_fixed_of_lt _ (j_type_lt _ _ _ hd ho),
    mask32_fixed_of_lt _ (i_type_lt imm rs1 0 rd 0x13 h1 f0 hd g19),
    mask32_fixed_of_lt _ (r_type_lt 0x00 rs2 rs1 0 rd 0x33 (by norm_num) h2 h1 f0 hd g51),
    mask32_fixed_of_lt _ (r_type_lt 0x20 rs2 rs1 0 rd 0x33 (by norm_num) h2 h1 f0 hd g51),
    mask32_fixed_of_lt _ (i_type_lt imm rs1 7 rd 0x13 h1 f7' hd g19),
    mask32_fixed_of_lt _ (i_type_lt imm rs1 6 rd 0x13 h1 f6 hd g19),
    mask32_fixed_of_lt _ (i_type_lt imm rs1 4 rd 0x13 h1 f4 hd g19),
    mask32_fixed_of_lt _ (i_type_lt shamt rs1 1 rd 0x13 h1 f1 hd g19),
    mask32_fixed_of_lt _ (i_type_lt shamt rs1 5 rd 0x13 h1 f5 hd g19),
    mask32_fixed_of_lt _ (i_type_lt (0x400 ||| shamt : Nat) rs1 5 rd 0x13 h1 f5 hd g19),
    mask32_fixed_of_lt _ (i_type_lt imm rs1 2 rd 0x13 h1 f2 hd g19),
    mask32_fixed_of_lt _ (r_type_lt 0x00 rs2 rs1 2 rd 0x33 (by norm_num) h2 h1 f2 hd g51),
    mask32_fixed_of_lt _ (u_type_lt imm rd 0x37 hd g55),
    mask32_fixed_of_lt _ (u_type_lt imm rd 0x17 hd g23),
    mask32_fixed_of_lt _ (s_type_lt imm rs2 rs1 2 0x23 h2 h1 f2 g35),
    mask32_fixed_of_lt _ (s_type_lt imm rs2 rs1 1 0x23 h2 h1 f1 g35),
    mask32_fixed_of_lt _ (s_type_lt imm rs2 rs1 0 0x23 h2 h1 f0 g35),
    mask32_fixed_of_lt _ (i_type_lt imm rs1 2 rd 0x03 h1 f2 hd g03),
    mask32_fixed_of_lt _ (i_type_lt imm rs1 1 rd 0x03 h1 f1 hd g03),
    mask32_fixed_of_lt _ (i_type_lt imm rs1 0 rd 0x03 h1 f0 hd g03),
    mask32_fixed_of_lt _ (i_type_lt imm rs1 4 rd 0x03 h1 f4 hd g03),
    mask32_fixed_of_lt _ (i_type_lt imm rs1 5 rd 0x03 h1 f5 hd g03),
    mask32_fixed_of_lt _ (b_type_lt imm rs2 rs1 0 0x63 h2 h1 f0 g99),
    mask32_fixed_of_lt _ (b_type_lt imm rs2 rs1 1 0x63 h2 h1 f1 g99),
    mask32_fixed_of_lt _ (b_type_lt imm rs2 rs1 4 0x63 h2 h1 f4 g99),
    mask32_fixed_of_lt _ (b_type_lt imm rs2 rs1 5 0x63 h2 h1 f5 g99),
    mask32_fixed_of_lt _ (j_type_lt imm rd 0x6F hd g111),
    mask32_fixed_of_lt _ (i_type_lt imm rs1 0 rd 0x67 h1 f0 hd g103),
    mask32_fixed_of_lt _ (by norm_num [ecall]),
    mask32_fixed_of_lt _ (i_type_lt 0 0 0 0 0x13 (by norm_num) f0 (by norm_num) g19),
    mask32_fixed_of_lt _ (csrrw_lt rd csr rs1 hd hc h1),
    mask32_fixed_of_lt _ (csrrs_lt rd csr rs1 hd hc h1)⟩

/-- Witness for C10 at concrete operands. -/
theorem C10_words_unchanged_by_mask32_witness :
    mask32_fixed (r_type 0 1 2 3 4 51) ∧ mask32_fixed (i_type (-1) 2 3 4 51) := by
  have h := C10_words_unchanged_by_mask32 0 1 2 3 4 51 2816 31 (-1)
    (by norm_num) (by norm_num) (by norm_num) (by norm_num) (by norm_num)
    (by norm_num) (by norm_num) (by norm_num)
  exact ⟨h.1, h.2.1⟩

/-- C8: observing register index 0 via get_reg yields 0 in every DUT state
and for every loaded program; index 0 is answered without reading any DUT
storage cell, so the answer does not depend on the DUT state at all. -/
theorem C8_zero_register_reads_zero (dut : Dut) :
    get_reg dut 0 = some 0 ∧ ∀ dut2 : Dut, get_reg dut 0 = get_reg dut2 0 :=
  ⟨rfl, fun _ => rfl⟩

/-
Waiter lemmas.  The loop bodies are analysed by induction on the remaining
fuel, tracking the number of edges already consumed.
-/

theorem wait_reg_go_agree (ta tb : Nat → Dut) (idx : Nat) (val : Int) :
    ∀ (fuel e : Nat), (∀ k, e + 1 ≤ k → ta k = tb k) →
      wait_reg_go ta idx val e fuel = wait_reg_go tb idx val e fuel := by
  intro fuel
  induction fuel with
  | zero => intro e h; rfl
  | succ n ih =>
    intro e h
    have he : ta (e + 1) = tb (e + 1) := h (e + 1) (by omega)
    simp only [wait_reg_go, he]
    cases hg : get_reg (tb (e + 1)) idx with
    | none => exact ih (e + 1) (fun k hk => h k (by omega))
    | some v =>
      by_cases hv : v = val
      · simp only [if_pos hv]
      · simp only [if_neg hv]
        exact ih (e + 1) (fun k hk => h k (by omega))

theorem wait_reg_nonzero_go_agree (ta tb : Nat → Dut) (idx : Nat) :
    ∀ (fuel e : Nat), (∀ k, e + 1 ≤ k → ta k = tb k) →
      wait_reg_nonzero_go ta idx e fuel = wait_reg_nonzero_go tb idx e fuel := by
  intro fuel
  induction fuel with
  | zero => intro e h; rfl
  | succ n ih =>
    intro e h
    have he : ta (e + 1) = tb (e + 1) := h (e + 1) (by omega)
    simp only [wait_reg_nonzero_go, he]
    cases hg : get_reg (tb (e + 1)) idx with
    | none => exact ih (e + 1) (fun k hk => h k (by omega))
    | some v =>
      by_cases hv : v ≠ 0
      · simp only [if_pos hv]
      · simp only [if_neg hv]
        exact ih (e + 1) (fun k hk => h k (by omega))

theorem wait_reg_go_success_edges (tr : Nat → Dut) (idx : Nat) (val : Int) :
    ∀ (fuel e : Nat), (wait_reg_go tr idx val e fuel).1 = true →
      e + 1 ≤ (wait_reg_go tr idx val e fuel).2 := by
  intro fuel
  induction fuel with
  | zero => intro e h; simp [wait_reg_go] at h
  | succ n ih =>
    intro e h
    simp only [wait_reg_go] at h ⊢
    cases hg : get_reg (tr (e + 1)) idx with
    | none =>
      simp only [hg] at h ⊢
      have := ih (e + 1) h
      omega
    | some v =>
      simp only [hg] at h ⊢
      by_cases hv : v = val
      · simp only [if_pos hv]
        omega
      · simp only [if_neg hv] at h ⊢
        have := ih (e + 1) h
        omega

theorem wait_reg_nonzero_go_success_edges (tr : Nat → Dut) (idx : Nat) :
    ∀ (fuel e : Nat), (wait_reg_nonzero_go tr idx e fuel).1 = true →
      e + 1 ≤ (wait_reg_nonzero_go tr idx e fuel).2 := by
  intro fuel
  induction fuel with
  | zero => intro e h; simp [wait_reg_nonzero_go] at h
  | succ n ih =>
    intro e h
    simp only [wait_reg_nonzero_go] at h ⊢
    cases hg : get_reg (tr (e + 1)) idx with
    | none =>
      simp only [hg] at h ⊢
      have := ih (e + 1) h
      omega
    | some v =>
      simp only [hg] at h ⊢
      by_cases hv : v ≠ 0
      · simp only [if_pos hv]
        omega
      · simp only [if_neg hv] at h ⊢
        have := ih (e + 1) h
        omega

theorem wait_reg_go_timeout (tr : Nat → Dut) (idx : Nat) (val : Int)
    (h : ∀ k, get_reg (tr k) idx ≠ some val) :
    ∀ (fuel e : Nat), wait_reg_go tr idx val e fuel = (false, e + fuel) := by
  intro fuel
  induction fuel with
  | zero => intro e; rfl
  | succ n ih =>
    intro e
    simp only [wait_reg_go]
    cases hg : get_reg (tr (e + 1)) idx with
    | none =>
      rw [ih (e + 1)]
      exact congrArg (Prod.mk false) (by omega)
    | some v =>
      have hv : v ≠ val := fun hvv => h (e + 1) (by rw [hg, hvv])
      simp only [if_neg hv]
      rw [ih (e + 1)]
      exact congrArg (Prod.mk false) (by omega)

theorem wait_reg_nonzero_go_timeout (tr : Nat → Dut) (idx : Nat)
    (h : ∀ k v, get_reg (tr k) idx = some v → v = 0) :
    ∀ (fuel e : Nat), wait_reg_nonzero_go tr idx e fuel = (false, e + fuel) := by
  intro fuel
  induction fuel with
  | zero => intro e; rfl
  | succ n ih =>
    intro e
    simp only [wait_reg_nonzero_go]
    cases hg : get_reg (tr (e + 1)) idx with
    | none =>
      rw [ih (e + 1)]
      exact congrArg (Prod.mk false) (by omega)
    | some v =>
      have hv : ¬ v ≠ 0 := fun hvv => hvv (h (e + 1) v hg)
      simp only [if_neg hv]
      rw [ih (e + 1)]
      exact congrArg (Prod.mk false) (by omega)

/-- C1: both waiters sample the observed register value only strictly after
a clock edge: the outcome is independent of the state at the moment of
invocation (any two traces agreeing after the first edge give the same
result), and whenever a waiter reports success it has consumed at least one
clock edge — even when the condition already holds at invocation time. -/
theorem C1_sample_strictly_after_edge (ta tb : Nat → Dut) (idx : Nat) (val : Int)
    (timeout : Nat) (h : ∀ k, 1 ≤ k → ta k = tb k) :
    wait_reg ta idx val timeout = wait_reg tb idx val timeout ∧
    wait_reg_nonzero ta idx timeout = wait_reg_nonzero tb idx timeout ∧
    ((wait_reg ta idx val timeout).1 = true → 1 ≤ (wait_reg ta idx val timeout).2) ∧
    ((wait_reg_nonzero ta idx timeout).1 = true → 1 ≤ (wait_reg_nonzero ta idx timeout).2) :=
  ⟨wait_reg_go_agree ta tb idx val timeout 0 (fun k hk => h k (by omega)),
    wait_reg_nonzero_go_agree ta tb idx timeout 0 (fun k hk => h k (by omega)),
    fun hs => wait_reg_go_success_edges ta idx val timeout 0 hs,
    fun hs => wait_reg_nonzero_go_success_edges ta idx timeout 0 hs⟩

/-- A DUT state whose register file resolves every index to 7. -/
def dutA : Dut := ⟨fun _ => some 7⟩

/-- A DUT state whose register file resolves no index (every read raises). -/
def dutB : Dut := ⟨fun _ => none⟩

/-- A trace that differs from trace2 only at the moment of invocation. -/
def trace1 : Nat → Dut := fun k => if k = 0 then dutA else dutB

/-- The constant trace of the unresolvable DUT state. -/
def trace2 : Nat → Dut := fun _ => dutB

/-- Witness for C1: on register 0 the condition value 0 holds already at
invocation, yet the reported success consumed one edge; and the state at
invocation time is irrelevant. -/
theorem C1_sample_strictly_after_edge_witness :
    wait_reg trace1 0 0 3 = wait_reg trace2 0 0 3 ∧ 1 ≤ (wait_reg trace1 0 0 3).2 := by
  have h := C1_sample_strictly_after_edge trace1 trace2 0 0 3 (fun k hk => if_neg (by omega))
  exact ⟨h.1, h.2.2.1 (by decide)⟩

/-- C2: on a trace where the waited-for condition never becomes true — even
when individual register observations fail — both waiters return failure
(false) after consuming exactly timeout (max_edges) clock edges, never more
and never fewer; being total functions into Bool × Nat they return normally
rather than raising. -/
theorem C2_timeout_exact_edges (tr : Nat → Dut) (idx : Nat) (val : Int) (timeout : Nat)
    (h : ∀ k, get_reg (tr k) idx ≠ some val)
    (h0 : ∀ k v, get_reg (tr k) idx = some v → v = 0) :
    wait_reg tr idx val timeout = (false, timeout) ∧
    wait_reg_nonzero tr idx timeout = (false, timeout) := by
  refine ⟨?_, ?_⟩
  · have h1 := wait_reg_go_timeout tr idx val h timeout 0
    simpa using h1
  · have h1 := wait_reg_nonzero_go_timeout tr idx h0 timeout 0
    simpa using h1

/-- Witness for C2: a DUT whose register 5 never resolves makes both waiters
time out after exactly 4 edges. -/
theorem C2_timeout_exact_edges_witness :
    wait_reg trace2 5 7 4 = (false, 4) ∧ wait_reg_nonzero trace2 5 4 = (false, 4) :=
  C2_timeout_exact_edges trace2 5 7 4 (fun _ h => Option.noConfusion h)
    (fun _ _ h => Option.noConfusion h)

/-
Serializer lemmas.
-/

theorem hexDigit_isHexUpper (m : Nat) (h : m < 16) : isHexUpper (hexDigit m) = true := by
  interval_cases m <;> decide

theorem hexDigits_chars (n : Nat) : ∀ c ∈ hexDigits n, isHexUpper c = true := by
  induction n using Nat.strong_induction_on with
  | _ n ih =>
    rw [hexDigits]
    split
    · intro c hc
      rw [List.mem_singleton] at hc
      subst hc
      exact hexDigit_isHexUpper n (by assumption)
    · intro c hc
      rw [List.mem_append] at hc
      rcases hc with hc | hc
      · exact ih (n / 16) (by omega) c hc
      · rw [List.mem_singleton] at hc
        subst hc
        exact hexDigit_isHexUpper (n % 16) (by omega)

theorem hexDigits_length_le (k : Nat) :
    ∀ n, 1 ≤ k → n < 16 ^ k → (hexDigits n).length ≤ k := by
  induction k with
  | zero => intro n h1 h; omega
  | succ k ih =>
    intro n h1 h
    rw [hexDigits]
    split
    · simp
    · rename_i hn
      rw [List.length_append]
      have hk : 1 ≤ k := by
        rcases Nat.eq_zero_or_pos k with hk0 | hk0
        · subst hk0
          norm_num at h
          omega
        · exact hk0
      have hrec := ih (n / 16) hk (by rw [pow_succ] at h; omega)
      simp only [List.length_singleton]
      omega

theorem format08X_length (n : Nat) (h : n < 4294967296) : (format08X n).length = 8 := by
  have h16 : (16 : Nat) ^ 8 = 4294967296 := by norm_num
  have h1 : (hexDigits n).length ≤ 8 := hexDigits_length_le 8 n (by norm_num) (by omega)
  unfold format08X
  rw [List.length_append, List.length_replicate]
  omega

theorem format08X_chars (n : Nat) : ∀ c ∈ format08X n, isHexUpper c = true := by
  intro c hc
  unfold format08X at hc
  rw [List.mem_append] at hc
  rcases hc with hc | hc
  · rw [List.eq_of_mem_replicate hc]
    decide
  · exact hexDigits_chars n c hc

/-- C9: serialization writes one line per word, in program order (line i is
the image of word i), each line being the word masked to 32 bits rendered as
exactly 8 uppercase zero-padded hexadecimal characters; the line count
equals the instruction count. -/
theorem C9_one_line_per_word_8_hex (prog : List Nat) :
    (serialize prog).length = prog.length ∧
    (∀ i : Nat, (serialize prog).get? i =
      (prog.get? i).map (fun instr => format08X (instr &&& 0xFFFFFFFF))) ∧
    (∀ line ∈ serialize prog, line.length = 8 ∧ ∀ c ∈ line, isHexUpper c = true) := by
  refine ⟨List.length_map _ _, fun i => List.get?_map _ _ _, ?_⟩
  intro line hline
  rw [serialize, List.mem_map] at hline
  obtain ⟨instr, hin, rfl⟩ := hline
  refine ⟨format08X_length _ ?_, format08X_chars _⟩
  rw [and_mask32]
  exact Nat.mod_lt _ (by norm_num)

/-- Witness for C9 on the one-instruction program consisting of the ADDI of
scenario 1. -/
theorem C9_one_line_per_word_8_hex_witness :
    (serialize [addi 1 0 42]).length = 1 ∧
    (serialize [addi 1 0 42]).get? 0 = some (format08X (addi 1 0 42 &&& 0xFFFFFFFF)) ∧
    (format08X (addi 1 0 42 &&& 0xFFFFFFFF)).length = 8 := by
  have h := C9_one_line_per_word_8_hex [addi 1 0 42]
  refine ⟨h.1, ?_, (h.2.2 _ (by simp [serialize])).1⟩
  rw [h.2.1 0]
  rfl

end BRV32
